import Mathlib

/-!
Verification development for the `rover dev` leader/follower coordination
subsystem.

The definitions below are a shallow embedding of the Rust source:
  * `src/command/dev/protocol/leader.rs` — the leader session's subgraph
    registry (`add_subgraph`, `update_subgraph`, `remove_subgraph`), the
    composition driver (`compose`), and federation-version resolution
    (`get_federation_version`);
  * `src/command/dev/watcher.rs` — the per-subgraph schema watcher state
    machine (`SubgraphSchemaWatcher`, its constructors, `update_subgraph`
    and the polling loop).

External collaborators (the composer, the router child process, the socket
transport, filesystem and HTTP fetches) are modelled as explicit inputs:
the composer is an oracle function of the registry, fetch outcomes are an
input stream, and router/console side effects are recorded as traces in
the result values.
-/

/-! ## Data model (`src/command/dev/protocol/types.rs` via its uses) -/

/-- A subgraph's name, `SubgraphName` in the source. -/
abbrev SubgraphName := String

/-- A subgraph's routing URL, rendered as a string (`reqwest::Url` display). -/
abbrev SubgraphUrl := String

/-- `SubgraphKey = (SubgraphName, SubgraphUrl)`. -/
abbrev SubgraphKey := SubgraphName × SubgraphUrl

/-- Opaque GraphQL SDL document, `SubgraphSdl` in the source. -/
abbrev SubgraphSdl := String

/-- `SubgraphEntry = (SubgraphKey, SubgraphSdl)`. -/
abbrev SubgraphEntry := SubgraphKey × SubgraphSdl

/-- The leader's registry `HashMap<SubgraphKey, SubgraphSdl>`, embedded as an
association list with pairwise-distinct keys; the list order stands for the
hash map's (unspecified but per-state fixed) iteration order. -/
abbrev SubgraphRegistry := List (SubgraphKey × SubgraphSdl)

/-- `HashMap::get` / the `Entry` occupancy test: first binding of an exact key. -/
def regLookup : SubgraphRegistry → SubgraphKey → Option SubgraphSdl
  | [], _ => none
  | (k, s) :: rest, key => if k = key then some s else regLookup rest key

/-- `VacantEntry::insert`: add a binding for a key that is absent. -/
def regInsert (r : SubgraphRegistry) (k : SubgraphKey) (s : SubgraphSdl) :
    SubgraphRegistry :=
  r ++ [(k, s)]

/-- `*prev_sdl = sdl.to_string()`: replace the value stored at an exact key. -/
def regReplace : SubgraphRegistry → SubgraphKey → SubgraphSdl → SubgraphRegistry
  | [], _, _ => []
  | (k, s) :: rest, key, sdl =>
      if k = key then (k, sdl) :: rest else (k, s) :: regReplace rest key sdl

/-- `HashMap::remove` of an exact key. -/
def regRemove : SubgraphRegistry → SubgraphKey → SubgraphRegistry
  | [], _ => []
  | (k, s) :: rest, key => if k = key then rest else (k, s) :: regRemove rest key

/-- `self.subgraphs.keys().find(|(name, _)| name == subgraph_name)`: the first
key in iteration order whose name component matches, URL ignored. -/
def regFindByName : SubgraphRegistry → SubgraphName → Option SubgraphKey
  | [], _ => none
  | (k, _) :: rest, n => if k.1 = n then some k else regFindByName rest n

/-- `LeaderMessageKind` from `leader.rs`. -/
inductive LeaderMessageKind
  | GetVersion (follower_version : String) (leader_version : String)
  | LeaderSessionInfo (subgraphs : List SubgraphKey)
  | CompositionSuccess (action : String)
  | ErrorNotification (error : String)
  | MessageReceived
deriving DecidableEq, Repr

/-- `FollowerMessageKind` from the protocol module. -/
inductive FollowerMessageKind
  | AddSubgraph (subgraph_entry : SubgraphEntry)
  | UpdateSubgraph (subgraph_entry : SubgraphEntry)
  | RemoveSubgraph (subgraph_name : SubgraphName)
  | GetSubgraphs
  | HealthCheck
  | GetVersion (follower_version : String)
  | Shutdown
deriving DecidableEq, Repr

/-- `Bool`-valued test for the `CompositionSuccess` variant. -/
def isCompositionSuccess : LeaderMessageKind → Bool
  | .CompositionSuccess _ => true
  | _ => false

/-- `CompositionResult = Result<Option<String>, String>`: a composer error
string, or `none` when the composed schema is byte-identical to the last
successful one, or `some schema` when composition produced a new schema. -/
abbrev CompositionResult := Except String (Option String)

/-- `LeaderMessageKind::add_subgraph_composition_success`'s action string. -/
def addSubgraphAction (name : SubgraphName) : String :=
  "adding the \x27" ++ name ++ "\x27 subgraph"

/-- `LeaderMessageKind::update_subgraph_composition_success`'s action string. -/
def updateSubgraphAction (name : SubgraphName) : String :=
  "updating the \x27" ++ name ++ "\x27 subgraph"

/-- `LeaderMessageKind::remove_subgraph_composition_success`'s action string. -/
def removeSubgraphAction (name : SubgraphName) : String :=
  "removing the \x27" ++ name ++ "\x27 subgraph"

/-- The duplicate-key error message built in `LeaderSession::add_subgraph`
(the anyhow message inside the `RoverError` display). -/
def subgraphAlreadyExistsError (name : SubgraphName) (url : SubgraphUrl) : String :=
  "subgraph with name \x27" ++ name ++ "\x27 and url \x27" ++ url ++
    "\x27 already exists"

/-- Result of one registry operation: the reply sent to the follower, the
registry after the call, and the trace of registries `compose` was invoked
on (at most one per operation). -/
structure OpResult where
  reply : LeaderMessageKind
  registry : SubgraphRegistry
  composed : List SubgraphRegistry
deriving DecidableEq, Repr

/-! ## Leader registry operations (`leader.rs` lines 261–331)

The composer is an oracle `comp : SubgraphRegistry → CompositionResult`:
`LeaderSession::compose` reads only `self.subgraphs` (via
`supergraph_config()`) before handing off to the external composer, so a
single call is determined by the registry at call time. -/

/-- `LeaderSession::add_subgraph` (leader.rs 262–286). -/
def add_subgraph (comp : SubgraphRegistry → CompositionResult)
    (r : SubgraphRegistry) : SubgraphEntry → OpResult
  | ((name, url), sdl) =>
      let is_first_subgraph := r.isEmpty
      match regLookup r (name, url) with
      | none =>
          let r' := regInsert r (name, url) sdl
          match comp r' with
          | .error composition_err =>
              ⟨.ErrorNotification composition_err, r', [r']⟩
          | .ok (some _) =>
              if is_first_subgraph then ⟨.MessageReceived, r', [r']⟩
              else ⟨.CompositionSuccess (addSubgraphAction name), r', [r']⟩
          | .ok none => ⟨.MessageReceived, r', [r']⟩
      | some _ =>
          ⟨.ErrorNotification (subgraphAlreadyExistsError name url), r, []⟩

/-- `LeaderSession::update_subgraph` (leader.rs 289–308). -/
def update_subgraph (comp : SubgraphRegistry → CompositionResult)
    (r : SubgraphRegistry) : SubgraphEntry → OpResult
  | ((name, url), sdl) =>
      match regLookup r (name, url) with
      | some prev_sdl =>
          if prev_sdl ≠ sdl then
            let r' := regReplace r (name, url) sdl
            match comp r' with
            | .error composition_err =>
                ⟨.ErrorNotification composition_err, r', [r']⟩
            | .ok (some _) =>
                ⟨.CompositionSuccess (updateSubgraphAction name), r', [r']⟩
            | .ok none => ⟨.MessageReceived, r', [r']⟩
          else ⟨.MessageReceived, r, []⟩
      | none => add_subgraph comp r ((name, url), sdl)

/-- `LeaderSession::remove_subgraph` (leader.rs 311–331). -/
def remove_subgraph (comp : SubgraphRegistry → CompositionResult)
    (r : SubgraphRegistry) (subgraph_name : SubgraphName) : OpResult :=
  match regFindByName r subgraph_name with
  | some (name, url) =>
      let r' := regRemove r (name, url)
      match comp r' with
      | .error composition_err => ⟨.ErrorNotification composition_err, r', [r']⟩
      | .ok (some _) => ⟨.CompositionSuccess (removeSubgraphAction name), r', [r']⟩
      | .ok none => ⟨.MessageReceived, r', [r']⟩
  | none => ⟨.MessageReceived, r, []⟩

/-- The three registry-mutating follower messages, for stating laws that
quantify over operations. -/
inductive RegistryOp
  | add (e : SubgraphEntry)
  | update (e : SubgraphEntry)
  | remove (n : SubgraphName)
deriving DecidableEq, Repr

/-- Dispatch of one registry-mutating follower message
(`handle_follower_message_kind`, registry cases). -/
def applyOp (comp : SubgraphRegistry → CompositionResult)
    (r : SubgraphRegistry) : RegistryOp → OpResult
  | .add e => add_subgraph comp r e
  | .update e => update_subgraph comp r e
  | .remove n => remove_subgraph comp r n

/-- Folding a sequence of registry operations over the leader state. -/
def applyOps (comp : SubgraphRegistry → CompositionResult) :
    SubgraphRegistry → List RegistryOp → SubgraphRegistry
  | r, [] => r
  | r, op :: ops => applyOps comp (applyOp comp r op).registry ops

/-! ## Composition driver (`LeaderSession::compose`, leader.rs 334–349)

`compose` runs the external composer and, on a new schema, asks the router
supervisor to (re)start; on any error it kills the router best-effort. The
external calls are inputs (`composer_result`, `spawn_result`, `kill_result`)
and the router interactions are recorded as a trace. -/

/-- Interactions with the router supervisor observed during one `compose`. -/
inductive RouterAction
  | spawn
  | kill
deriving DecidableEq, Repr

/-- Result of one `compose` call: the `CompositionResult` returned to the
caller, the router-supervisor calls made (in order), and the kill errors
that were logged and swallowed (`log_err_and_continue`). -/
structure ComposeOutcome where
  result : CompositionResult
  routerActions : List RouterAction
  killErrorsLogged : List String

/-- `LeaderSession::compose` (leader.rs 334–349): `compose_runner.run(..)`
`.and_then(|maybe_new_schema| { if some { spawn? } ; Ok(..) })`
`.map_err(|e| { let _ = kill().map_err(log_err_and_continue); e })`. -/
def composeStep (composer_result : CompositionResult)
    (spawn_result : Except String Unit) (kill_result : Except String Unit) :
    ComposeOutcome :=
  match composer_result with
  | .error e =>
      { result := .error e
        routerActions := [.kill]
        killErrorsLogged := match kill_result with | .error ke => [ke] | .ok _ => [] }
  | .ok none =>
      { result := .ok none, routerActions := [], killErrorsLogged := [] }
  | .ok (some s) =>
      match spawn_result with
      | .ok _ =>
          { result := .ok (some s), routerActions := [.spawn], killErrorsLogged := [] }
      | .error err =>
          { result := .error err
            routerActions := [.spawn, .kill]
            killErrorsLogged := match kill_result with | .error ke => [ke] | .ok _ => [] }

/-! ## Federation version resolution (`LeaderSession::get_federation_version`,
leader.rs 150–174) -/

/-- A parsed semantic version (pre-release/build metadata not needed by any
input of the claims). -/
structure SemVer where
  major : Nat
  minor : Nat
  patch : Nat
deriving DecidableEq, Repr

/-- `apollo_federation_types::config::FederationVersion`. -/
inductive FederationVersion
  | LatestFedOne
  | LatestFedTwo
  | ExactFedOne (v : SemVer)
  | ExactFedTwo (v : SemVer)
deriving DecidableEq, Repr

/-- Split a character list at every `.` (for semver parsing). -/
def splitDots : List Char → List (List Char)
  | [] => [[]]
  | c :: cs =>
      let rest := splitDots cs
      if c = '.' then [] :: rest
      else
        match rest with
        | [] => [[c]]
        | g :: gs => (c :: g) :: gs

/-- Parse a non-empty all-digit character list as a natural number. -/
def digitsToNat (cs : List Char) : Option Nat :=
  if cs.isEmpty then none
  else if cs.all Char.isDigit then
    some (cs.foldl (fun n c => 10 * n + (c.toNat - 48)) 0)
  else none

/-- Parse a `major.minor.patch` semantic version. -/
def parseSemVer (s : String) : Option SemVer :=
  match splitDots s.data with
  | [a, b, c] => do
      let major ← digitsToNat a
      let minor ← digitsToNat b
      let patch ← digitsToNat c
      pure ⟨major, minor, patch⟩
  | _ => none

/-- Modelled from the spec: `FederationVersion::from_str` lives in the
external `apollo-federation-types` crate, not under `src/`. Per the spec the
environment string is "parsed as a semver" with malformed values falling
back, and per the repository's own test table (leader.rs 566–586) the call
`from_str("=" ++ v)` yields `ExactFedTwo` for a 2.x semver ("2.3.4"),
`ExactFedOne` for a 0.x semver ("0.40.0"), and fails for other majors
("1.0.1") and for non-semver strings ("crackers", "cheese"). -/
def federationVersionFromEnvStr (version : String) : Option FederationVersion :=
  match parseSemVer version with
  | some v =>
      if v.major = 0 then some (.ExactFedOne v)
      else if v.major = 2 then some (.ExactFedTwo v)
      else none
  | none => none

/-- Warnings logged by `get_federation_version`. -/
inductive FedVersionWarning
  | couldNotParseEnvVar
  | versionNotFoundInSupergraphSchema
deriving DecidableEq, Repr

/-- `LeaderSession::get_federation_version` (leader.rs 150–174): the resolved
version together with the warnings logged, in order. The source returns
`RoverResult` but never an `Err`. -/
def get_federation_version (sc_config_version : Option FederationVersion)
    (env_var : Option String) : FederationVersion × List FedVersionWarning :=
  let env_var_version : Option FederationVersion × List FedVersionWarning :=
    match env_var with
    | some version =>
        match federationVersionFromEnvStr version with
        | some v => (some v, [])
        | none => (none, [.couldNotParseEnvVar])
    | none => (none, [])
  match env_var_version with
  | (some v, warnings) => (v, warnings)
  | (none, warnings) =>
      match sc_config_version with
      | some v => (v, warnings)
      | none => (.LatestFedTwo, warnings ++ [.versionNotFoundInSupergraphSchema])

/-! ## Subgraph schema watcher (`src/command/dev/watcher.rs`)

Fetching a subgraph's SDL (file read, introspection, registry fetch) is
external I/O: each poll's outcome is an input
`Except String (SubgraphSdl × Option SubgraphSchemaWatcherKind)`, the `ok`
payload carrying the fetched SDL together with the optional refreshed
runner kind returned by `get_subgraph_definition_and_maybe_new_runner`
(an `Unknown` introspect runner resolves to a concrete one on first
success). The error payload is the display string of the `RoverError`.
Messages handed to the `FollowerMessenger` and the user-facing console
messages are recorded as traces. -/

/-- `IntrospectRunnerKind` (from `command/dev/introspect.rs`), by endpoint. -/
inductive IntrospectRunnerKind
  | Unknown (endpoint : String)
  | Graph (endpoint : String)
  | Subgraph (endpoint : String)
deriving DecidableEq, Repr

/-- `SubgraphSchemaWatcherKind` (watcher.rs 328–336). -/
inductive SubgraphSchemaWatcherKind
  | Introspect (runner : IntrospectRunnerKind) (polling_interval : Nat)
  | File (path : String)
  | Once (sdl : String)
deriving DecidableEq, Repr

/-- `SubgraphSchemaWatcher` (watcher.rs 25–32); the `message_sender` handle
is represented by the trace of messages in the step results. -/
structure SubgraphSchemaWatcher where
  schema_watcher_kind : SubgraphSchemaWatcherKind
  subgraph_key : SubgraphKey
  subgraph_retries : Nat
  subgraph_retry_countdown : Nat
deriving DecidableEq, Repr

/-- `SubgraphSchemaWatcher::new_from_file_path` (watcher.rs 35–51). -/
def new_from_file_path (subgraph_key : SubgraphKey) (path : String)
    (subgraph_retries : Nat) : SubgraphSchemaWatcher :=
  { schema_watcher_kind := .File path
    subgraph_key
    subgraph_retries
    subgraph_retry_countdown := 0 }

/-- `SubgraphSchemaWatcher::new_from_sdl` (watcher.rs 77–90). -/
def new_from_sdl (subgraph_key : SubgraphKey) (sdl : String)
    (subgraph_retries : Nat) : SubgraphSchemaWatcher :=
  { schema_watcher_kind := .Once sdl
    subgraph_key
    subgraph_retries
    subgraph_retry_countdown := 0 }

/-- `SubgraphSchemaWatcher::new_from_introspect_runner` (watcher.rs 143–160). -/
def new_from_introspect_runner (subgraph_key : SubgraphKey)
    (introspect_runner : IntrospectRunnerKind) (polling_interval : Nat)
    (subgraph_retries : Nat) : SubgraphSchemaWatcher :=
  { schema_watcher_kind := .Introspect introspect_runner polling_interval
    subgraph_key
    subgraph_retries
    subgraph_retry_countdown := 0 }

/-- `SubgraphSchemaWatcher::new_from_url` (watcher.rs 53–75): wraps the URL
in an `Unknown` introspect runner and delegates. -/
def new_from_url (subgraph_key : SubgraphKey) (polling_interval : Nat)
    (subgraph_retries : Nat) (subgraph_url : String) : SubgraphSchemaWatcher :=
  new_from_introspect_runner subgraph_key (.Unknown subgraph_url)
    polling_interval subgraph_retries

/-- `SubgraphSchemaWatcher::new_from_graph_ref` (watcher.rs 92–141), success
path: the registry fetch (external I/O) produced `fetched_sdl` and a
resolved `routing_url`; the watcher is then built by `new_from_sdl`. -/
def new_from_graph_ref (yaml_subgraph_name : String) (routing_url : String)
    (fetched_sdl : String) (subgraph_retries : Nat) : SubgraphSchemaWatcher :=
  new_from_sdl (yaml_subgraph_name, routing_url) fetched_sdl subgraph_retries

/-- User-facing console messages printed by `update_subgraph`. -/
inductive ConsoleEvent
  | connectivityRestored
  | retryWarning
  | retriesExhausted
deriving DecidableEq, Repr

/-- Result of one watcher poll (and, aggregated, of a run of polls): the
watcher state, the `Option<String>` carried between polls (`last_message`
in `watch_subgraph_for_changes`), the messages sent to the leader, and the
console messages printed. -/
structure WatcherStepResult where
  state : SubgraphSchemaWatcher
  lastMessage : Option String
  sent : List FollowerMessageKind
  console : List ConsoleEvent
deriving DecidableEq, Repr

/-- `SubgraphSchemaWatcher::update_subgraph` (watcher.rs 202–264). -/
def watcherUpdateSubgraph (w : SubgraphSchemaWatcher)
    (last_message : Option String)
    (fetch_result : Except String (SubgraphSdl × Option SubgraphSchemaWatcherKind)) :
    WatcherStepResult :=
  match fetch_result with
  | .ok (sdl, maybe_new_refresher) =>
      let w₁ :=
        match maybe_new_refresher with
        | some new_refresher => { w with schema_watcher_kind := new_refresher }
        | none => w
      match last_message with
      | some lm =>
          if sdl ≠ lm then
            { state := { w₁ with subgraph_retry_countdown := w₁.subgraph_retries }
              lastMessage := some sdl
              sent := [.UpdateSubgraph (w₁.subgraph_key, sdl)]
              console :=
                if w₁.subgraph_retry_countdown < w₁.subgraph_retries then
                  [.connectivityRestored]
                else [] }
          else
            { state := { w₁ with subgraph_retry_countdown := w₁.subgraph_retries }
              lastMessage := some sdl
              sent := []
              console := [] }
      | none =>
          { state := { w₁ with subgraph_retry_countdown := w₁.subgraph_retries }
            lastMessage := some sdl
            sent := [.AddSubgraph (w₁.subgraph_key, sdl)]
            console := [] }
  | .error e =>
      if 0 < w.subgraph_retry_countdown then
        { state := { w with
            subgraph_retry_countdown := w.subgraph_retry_countdown - 1 }
          lastMessage := some e
          sent := []
          console := [.retryWarning] }
      else
        { state := w
          lastMessage := none
          sent := [.RemoveSubgraph w.subgraph_key.1]
          console := [.retriesExhausted] }

/-- The watcher polling loop (`watch_subgraph_for_changes`, watcher.rs
270–317): repeatedly runs `update_subgraph`, threading `last_message`;
the `Introspect` and `File` arms loop forever, so a run is indexed by the
list of fetch outcomes it observes. -/
def watcherRun (w : SubgraphSchemaWatcher) (last_message : Option String) :
    List (Except String (SubgraphSdl × Option SubgraphSchemaWatcherKind)) →
    WatcherStepResult
  | [] => ⟨w, last_message, [], []⟩
  | f :: fs =>
      let r := watcherUpdateSubgraph w last_message f
      let rest := watcherRun r.state r.lastMessage fs
      ⟨rest.state, rest.lastMessage, r.sent ++ rest.sent, r.console ++ rest.console⟩

/-! ## Predicates and concrete instances used by individual claims -/

/-- No registry entry maps to the empty SDL string. -/
def regNoEmptySdl (r : SubgraphRegistry) : Bool :=
  r.all fun p => p.2 != ""

/-- The operation's payload SDL (if it carries one) is non-empty. -/
def opSdlNonEmpty : RegistryOp → Bool
  | .add (_, sdl) => sdl != ""
  | .update (_, sdl) => sdl != ""
  | .remove _ => true

/-- A watcher mid-flight with one retry left out of a budget of three, as it
is after a successful fetch followed by two transport failures. -/
def watcherPartiallySpent : SubgraphSchemaWatcher :=
  { schema_watcher_kind := .Once "type Query"
    subgraph_key := ("inventory", "http://i/")
    subgraph_retries := 3
    subgraph_retry_countdown := 1 }

/-- A watcher with budget two whose countdown is full, as it is right after
a successful fetch. -/
def watcherFullBudget : SubgraphSchemaWatcher :=
  { schema_watcher_kind := .Introspect (.Graph "http://flaky/") 1
    subgraph_key := ("flaky", "http://flaky/")
    subgraph_retries := 2
    subgraph_retry_countdown := 2 }

/-! ## Registry helper lemmas -/

theorem regLookup_regInsert_self {r : SubgraphRegistry} {k : SubgraphKey}
    (s : SubgraphSdl) (h : regLookup r k = none) :
    regLookup (regInsert r k s) k = some s := by
  induction r with
  | nil => simp [regInsert, regLookup]
  | cons p rest ih =>
      obtain ⟨k0, s0⟩ := p
      by_cases hk : k0 = k
      · simp [regLookup, hk] at h
      · simp only [regLookup, hk, if_false] at h
        simpa [regInsert, regLookup, hk] using ih h

theorem regLookup_regReplace_self {r : SubgraphRegistry} {k : SubgraphKey}
    {s : SubgraphSdl} (s' : SubgraphSdl) (h : regLookup r k = some s) :
    regLookup (regReplace r k s') k = some s' := by
  induction r with
  | nil => simp [regLookup] at h
  | cons p rest ih =>
      obtain ⟨k0, s0⟩ := p
      by_cases hk : k0 = k
      · subst hk
        simp [regReplace, regLookup]
      · simp only [regLookup, hk, if_false] at h
        simpa [regReplace, regLookup, hk] using ih h

theorem mem_regReplace {k : SubgraphKey} {s : SubgraphSdl} :
    ∀ {r : SubgraphRegistry} {p : SubgraphKey × SubgraphSdl},
      p ∈ regReplace r k s → p ∈ r ∨ p = (k, s)
  | [], p, h => by simp [regReplace] at h
  | (k0, s0) :: rest, p, h => by
      by_cases hk : k0 = k
      · subst hk
        simp only [regReplace, if_pos rfl] at h
        rcases List.mem_cons.mp h with h | h
        · exact Or.inr h
        · exact Or.inl (List.mem_cons_of_mem _ h)
      · simp only [regReplace, if_neg hk] at h
        rcases List.mem_cons.mp h with h | h
        · exact Or.inl (h ▸ List.mem_cons_self _ _)
        · rcases mem_regReplace h with h' | h'
          · exact Or.inl (List.mem_cons_of_mem _ h')
          · exact Or.inr h'

theorem mem_regRemove {k : SubgraphKey} :
    ∀ {r : SubgraphRegistry} {p : SubgraphKey × SubgraphSdl},
      p ∈ regRemove r k → p ∈ r
  | [], p, h => by simp [regRemove] at h
  | (k0, s0) :: rest, p, h => by
      by_cases hk : k0 = k
      · subst hk
        simp only [regRemove, if_pos rfl] at h
        exact List.mem_cons_of_mem _ h
      · simp only [regRemove, if_neg hk] at h
        rcases List.mem_cons.mp h with h | h
        · exact h ▸ List.mem_cons_self _ _
        · exact List.mem_cons_of_mem _ (mem_regRemove h)

/-- `regFindByName` returns a key whose name component is the searched name. -/
theorem regFindByName_name :
    ∀ {r : SubgraphRegistry} {n : SubgraphName} {k : SubgraphKey},
      regFindByName r n = some k → k.1 = n
  | [], _, _, h => by simp [regFindByName] at h
  | (k0, s0) :: rest, n, k, h => by
      by_cases hk : k0.1 = n
      · simp only [regFindByName, if_pos hk] at h
        cases h
        exact hk
      · simp only [regFindByName, if_neg hk] at h
        exact regFindByName_name h

/-- After `update_subgraph`, the given key is bound to the new SDL (whatever
branch was taken: replace, no-op, or the forward to `add_subgraph`). -/
theorem regLookup_update_subgraph (comp : SubgraphRegistry → CompositionResult)
    (r : SubgraphRegistry) (name : SubgraphName) (url : SubgraphUrl)
    (sdl : SubgraphSdl) :
    regLookup (update_subgraph comp r ((name, url), sdl)).registry (name, url)
      = some sdl := by
  cases hlk : regLookup r (name, url) with
  | some prev =>
      by_cases hne : prev = sdl
      · subst hne
        simp [update_subgraph, hlk]
      · have hrep := regLookup_regReplace_self sdl hlk
        cases hcr : comp (regReplace r (name, url) sdl) with
        | error e => simp [update_subgraph, hlk, hne, hcr, hrep]
        | ok v => cases v <;> simp [update_subgraph, hlk, hne, hcr, hrep]
  | none =>
      have hins := regLookup_regInsert_self sdl hlk
      cases hcr : comp (regInsert r (name, url) sdl) with
      | error e => simp [update_subgraph, add_subgraph, hlk, hcr, hins]
      | ok v =>
          cases v <;>
            simp [update_subgraph, add_subgraph, hlk, hcr, hins, apply_ite,
              ite_self]

/-- Any entry of the registry after `add_subgraph` is either an old entry or
the added one. -/
theorem mem_add_subgraph_registry {comp : SubgraphRegistry → CompositionResult}
    {r : SubgraphRegistry} {name : SubgraphName} {url : SubgraphUrl}
    {sdl : SubgraphSdl} {p : SubgraphKey × SubgraphSdl}
    (hp : p ∈ (add_subgraph comp r ((name, url), sdl)).registry) :
    p ∈ r ∨ p = ((name, url), sdl) := by
  cases hlk : regLookup r (name, url) with
  | some s =>
      simp [add_subgraph, hlk] at hp
      exact Or.inl hp
  | none =>
      have hmem : p ∈ regInsert r (name, url) sdl → p ∈ r ∨ p = ((name, url), sdl) := by
        intro hq
        simp only [regInsert] at hq
        rcases List.mem_append.mp hq with hq | hq
        · exact Or.inl hq
        · exact Or.inr (by simpa using hq)
      cases hcr : comp (regInsert r (name, url) sdl) with
      | error e =>
          exact hmem (by simpa [add_subgraph, hlk, hcr] using hp)
      | ok v =>
          cases v with
          | none => exact hmem (by simpa [add_subgraph, hlk, hcr] using hp)
          | some s =>
              refine hmem ?_
              by_cases hr : r.isEmpty <;>
                simpa [add_subgraph, hlk, hcr, hr] using hp

/-- Any entry of the registry after `update_subgraph` is either an old entry
or the updated one. -/
theorem mem_update_subgraph_registry {comp : SubgraphRegistry → CompositionResult}
    {r : SubgraphRegistry} {name : SubgraphName} {url : SubgraphUrl}
    {sdl : SubgraphSdl} {p : SubgraphKey × SubgraphSdl}
    (hp : p ∈ (update_subgraph comp r ((name, url), sdl)).registry) :
    p ∈ r ∨ p = ((name, url), sdl) := by
  cases hlk : regLookup r (name, url) with
  | none =>
      exact mem_add_subgraph_registry (by simpa [update_subgraph, hlk] using hp)
  | some prev =>
      by_cases hne : prev = sdl
      · subst hne
        simp [update_subgraph, hlk] at hp
        exact Or.inl hp
      · cases hcr : comp (regReplace r (name, url) sdl) with
        | error e =>
            simp [update_subgraph, hlk, hne, hcr] at hp
            exact mem_regReplace hp
        | ok v =>
            cases v <;>
              · simp [update_subgraph, hlk, hne, hcr] at hp
                exact mem_regReplace hp

/-- Any entry of the registry after `remove_subgraph` was already present. -/
theorem mem_remove_subgraph_registry {comp : SubgraphRegistry → CompositionResult}
    {r : SubgraphRegistry} {n : SubgraphName} {p : SubgraphKey × SubgraphSdl}
    (hp : p ∈ (remove_subgraph comp r n).registry) : p ∈ r := by
  cases hf : regFindByName r n with
  | none =>
      simpa [remove_subgraph, hf] using hp
  | some k =>
      obtain ⟨kn, ku⟩ := k
      cases hcr : comp (regRemove r (kn, ku)) with
      | error e =>
          simp [remove_subgraph, hf, hcr] at hp
          exact mem_regRemove hp
      | ok v =>
          cases v <;>
            · simp [remove_subgraph, hf, hcr] at hp
              exact mem_regRemove hp

/-- One registry operation with non-empty payload SDL preserves the absence
of empty-SDL entries. -/
theorem regNoEmptySdl_applyOp (comp : SubgraphRegistry → CompositionResult)
    (r : SubgraphRegistry) (op : RegistryOp)
    (hop : opSdlNonEmpty op = true) (h : regNoEmptySdl r = true) :
    regNoEmptySdl (applyOp comp r op).registry = true := by
  simp only [regNoEmptySdl, List.all_eq_true, bne_iff_ne] at h ⊢
  cases op with
  | add e =>
      obtain ⟨⟨name, url⟩, sdl⟩ := e
      simp only [opSdlNonEmpty, bne_iff_ne] at hop
      intro p hp
      rcases mem_add_subgraph_registry hp with hmem | rfl
      · exact h p hmem
      · exact hop
  | update e =>
      obtain ⟨⟨name, url⟩, sdl⟩ := e
      simp only [opSdlNonEmpty, bne_iff_ne] at hop
      intro p hp
      rcases mem_update_subgraph_registry hp with hmem | rfl
      · exact h p hmem
      · exact hop
  | remove n =>
      intro p hp
      exact h p (mem_remove_subgraph_registry hp)

/-- `add_subgraph`'s reply, as a function of the composer outcome, whenever
the operation actually recomposed. -/
theorem add_subgraph_composed_reply
    (comp : SubgraphRegistry → CompositionResult) (r : SubgraphRegistry)
    (name : SubgraphName) (url : SubgraphUrl) (sdl : SubgraphSdl)
    (r' : SubgraphRegistry)
    (hc : (add_subgraph comp r ((name, url), sdl)).composed = [r']) :
    (∀ e, comp r' = .error e →
        (add_subgraph comp r ((name, url), sdl)).reply = .ErrorNotification e) ∧
    (comp r' = .ok none →
        (add_subgraph comp r ((name, url), sdl)).reply = .MessageReceived) := by
  cases hlk : regLookup r (name, url) with
  | some s =>
      simp [add_subgraph, hlk] at hc
  | none =>
      cases hcr : comp (regInsert r (name, url) sdl) with
      | error e0 =>
          obtain rfl : regInsert r (name, url) sdl = r' := by
            simpa [add_subgraph, hlk, hcr] using hc
          refine ⟨fun e he => ?_, fun he => ?_⟩
          · rw [hcr] at he
            injection he with he
            subst he
            simp [add_subgraph, hlk, hcr]
          · rw [hcr] at he
            simp at he
      | ok v =>
          cases v with
          | none =>
              obtain rfl : regInsert r (name, url) sdl = r' := by
                simpa [add_subgraph, hlk, hcr] using hc
              refine ⟨fun e he => ?_, fun _ => ?_⟩
              · rw [hcr] at he
                simp at he
              · simp [add_subgraph, hlk, hcr]
          | some s =>
              obtain rfl : regInsert r (name, url) sdl = r' := by
                by_cases hr : r.isEmpty <;>
                  simpa [add_subgraph, hlk, hcr, hr] using hc
              refine ⟨fun e he => ?_, fun he => ?_⟩ <;>
                · rw [hcr] at he
                  simp at he

/-- `update_subgraph`'s reply, as a function of the composer outcome,
whenever the operation actually recomposed. -/
theorem update_subgraph_composed_reply
    (comp : SubgraphRegistry → CompositionResult) (r : SubgraphRegistry)
    (name : SubgraphName) (url : SubgraphUrl) (sdl : SubgraphSdl)
    (r' : SubgraphRegistry)
    (hc : (update_subgraph comp r ((name, url), sdl)).composed = [r']) :
    (∀ e, comp r' = .error e →
        (update_subgraph comp r ((name, url), sdl)).reply = .ErrorNotification e) ∧
    (comp r' = .ok none →
        (update_subgraph comp r ((name, url), sdl)).reply = .MessageReceived) := by
  cases hlk : regLookup r (name, url) with
  | none =>
      have hadd := add_subgraph_composed_reply comp r name url sdl r'
        (by simpa [update_subgraph, hlk] using hc)
      simpa [update_subgraph, hlk] using hadd
  | some prev =>
      by_cases hne : prev = sdl
      · subst hne
        simp [update_subgraph, hlk] at hc
      · cases hcr : comp (regReplace r (name, url) sdl) with
        | error e0 =>
            obtain rfl : regReplace r (name, url) sdl = r' := by
              simpa [update_subgraph, hlk, hne, hcr] using hc
            refine ⟨fun e he => ?_, fun he => ?_⟩
            · rw [hcr] at he
              injection he with he
              subst he
              simp [update_subgraph, hlk, hne, hcr]
            · rw [hcr] at he
              simp at he
        | ok v =>
            cases v with
            | none =>
                obtain rfl : regReplace r (name, url) sdl = r' := by
                  simpa [update_subgraph, hlk, hne, hcr] using hc
                refine ⟨fun e he => ?_, fun _ => ?_⟩
                · rw [hcr] at he
                  simp at he
                · simp [update_subgraph, hlk, hne, hcr]
            | some s =>
                obtain rfl : regReplace r (name, url) sdl = r' := by
                  simpa [update_subgraph, hlk, hne, hcr] using hc
                refine ⟨fun e he => ?_, fun he => ?_⟩ <;>
                  · rw [hcr] at he
                    simp at he

/-- `remove_subgraph`'s reply, as a function of the composer outcome,
whenever the operation actually recomposed. -/
theorem remove_subgraph_composed_reply
    (comp : SubgraphRegistry → CompositionResult) (r : SubgraphRegistry)
    (n : SubgraphName) (r' : SubgraphRegistry)
    (hc : (remove_subgraph comp r n).composed = [r']) :
    (∀ e, comp r' = .error e →
        (remove_subgraph comp r n).reply = .ErrorNotification e) ∧
    (comp r' = .ok none → (remove_subgraph comp r n).reply = .MessageReceived) := by
  cases hf : regFindByName r n with
  | none =>
      simp [remove_subgraph, hf] at hc
  | some k =>
      obtain ⟨kn, ku⟩ := k
      cases hcr : comp (regRemove r (kn, ku)) with
      | error e0 =>
          obtain rfl : regRemove r (kn, ku) = r' := by
            simpa [remove_subgraph, hf, hcr] using hc
          refine ⟨fun e he => ?_, fun he => ?_⟩
          · rw [hcr] at he
            injection he with he
            subst he
            simp [remove_subgraph, hf, hcr]
          · rw [hcr] at he
            simp at he
      | ok v =>
          cases v with
          | none =>
              obtain rfl : regRemove r (kn, ku) = r' := by
                simpa [remove_subgraph, hf, hcr] using hc
              refine ⟨fun e he => ?_, fun _ => ?_⟩
              · rw [hcr] at he
                simp at he
              · simp [remove_subgraph, hf, hcr]
          | some s =>
              obtain rfl : regRemove r (kn, ku) = r' := by
                simpa [remove_subgraph, hf, hcr] using hc
              refine ⟨fun e he => ?_, fun he => ?_⟩ <;>
                · rw [hcr] at he
                  simp at he

/-- Unfolding of one iteration of the watcher polling loop. -/
theorem watcherRun_cons (w : SubgraphSchemaWatcher) (lm : Option String)
    (f : Except String (SubgraphSdl × Option SubgraphSchemaWatcherKind))
    (fs : List (Except String (SubgraphSdl × Option SubgraphSchemaWatcherKind))) :
    watcherRun w lm (f :: fs)
      = ⟨(watcherRun (watcherUpdateSubgraph w lm f).state
            (watcherUpdateSubgraph w lm f).lastMessage fs).state,
         (watcherRun (watcherUpdateSubgraph w lm f).state
            (watcherUpdateSubgraph w lm f).lastMessage fs).lastMessage,
         (watcherUpdateSubgraph w lm f).sent
           ++ (watcherRun (watcherUpdateSubgraph w lm f).state
                 (watcherUpdateSubgraph w lm f).lastMessage fs).sent,
         (watcherUpdateSubgraph w lm f).console
           ++ (watcherRun (watcherUpdateSubgraph w lm f).state
                 (watcherUpdateSubgraph w lm f).lastMessage fs).console⟩ := rfl

/-- Processing a full countdown's worth of consecutive failures plus one:
the first `n` polls warn and decrement, the last emits `RemoveSubgraph`;
the final `last_message` is `none` and the loop state survives. -/
theorem watcherRun_failures (e : String) :
    ∀ (n : Nat) (w : SubgraphSchemaWatcher) (lm : Option String),
      w.subgraph_retry_countdown = n →
      watcherRun w lm (List.replicate (n + 1) (Except.error e))
        = ⟨{ w with subgraph_retry_countdown := 0 }, none,
           [.RemoveSubgraph w.subgraph_key.1],
           List.replicate n ConsoleEvent.retryWarning
             ++ [ConsoleEvent.retriesExhausted]⟩ := by
  intro n
  induction n with
  | zero =>
      intro w lm h
      obtain ⟨kind, key, retries, countdown⟩ := w
      simp only at h
      subst h
      simp [watcherRun, watcherUpdateSubgraph, List.replicate]
  | succ k ih =>
      intro w lm h
      obtain ⟨kind, key, retries, countdown⟩ := w
      simp only at h
      subst h
      have hstep : watcherUpdateSubgraph ⟨kind, key, retries, k + 1⟩ lm
            (Except.error e)
          = ⟨⟨kind, key, retries, k⟩, some e, [], [ConsoleEvent.retryWarning]⟩ := by
        simp [watcherUpdateSubgraph]
      have hrec := ih ⟨kind, key, retries, k⟩ (some e) rfl
      conv_lhs => rw [List.replicate_succ]
      rw [watcherRun_cons, hstep]
      dsimp only
      rw [hrec]
      simp [List.replicate_succ]

/-! ## Claims -/

/-- C1: a first `AddSubgraph` into an empty registry never replies
`CompositionSuccess`; it replies `MessageReceived` whenever composition
succeeds, even when composition yields a schema. Every subsequent add whose
exact key is absent, where the composer produces a new schema and the
registry was non-empty before the call, replies `CompositionSuccess` naming
the added subgraph. -/
theorem C1_first_add_message_received :
    (∀ (comp : SubgraphRegistry → CompositionResult) (entry : SubgraphEntry),
        isCompositionSuccess (add_subgraph comp [] entry).reply = false) ∧
    (∀ (comp : SubgraphRegistry → CompositionResult) (entry : SubgraphEntry)
        (v : Option String),
        comp (regInsert [] entry.1 entry.2) = .ok v →
        (add_subgraph comp [] entry).reply = .MessageReceived) ∧
    (∀ (comp : SubgraphRegistry → CompositionResult) (r : SubgraphRegistry)
        (name : SubgraphName) (url : SubgraphUrl) (sdl s : String),
        regLookup r (name, url) = none → r ≠ [] →
        comp (regInsert r (name, url) sdl) = .ok (some s) →
        (add_subgraph comp r ((name, url), sdl)).reply
          = .CompositionSuccess (addSubgraphAction name)) := by
  refine ⟨?_, ?_, ?_⟩
  · intro comp entry
    obtain ⟨⟨name, url⟩, sdl⟩ := entry
    cases hcr : comp (regInsert [] (name, url) sdl) with
    | error e => simp [add_subgraph, regLookup, hcr, isCompositionSuccess]
    | ok v =>
        cases v <;> simp [add_subgraph, regLookup, hcr, isCompositionSuccess]
  · intro comp entry v h
    obtain ⟨⟨name, url⟩, sdl⟩ := entry
    cases v <;> simp [add_subgraph, regLookup, h]
  · intro comp r name url sdl s hlk hne hcr
    have hem : r.isEmpty = false := by
      cases r
      · exact absurd rfl hne
      · rfl
    simp [add_subgraph, hlk, hcr, hem]

/-- C1 witness: scenario `S1`/`S2` instances — the very first add replies
`MessageReceived` even though the composer yields a schema; the second add
replies `CompositionSuccess`. -/
theorem C1_first_add_message_received_witness :
    (add_subgraph (fun _ => .ok (some "supergraph")) []
        (("users", "http://u/"), "type Query")).reply = .MessageReceived ∧
    (add_subgraph (fun _ => .ok (some "supergraph"))
        [(("users", "http://u/"), "type Query")]
        (("posts", "http://p/"), "type P")).reply
      = .CompositionSuccess (addSubgraphAction "posts") :=
  ⟨C1_first_add_message_received.2.1 (fun _ => .ok (some "supergraph"))
      (("users", "http://u/"), "type Query") (some "supergraph") rfl,
   C1_first_add_message_received.2.2 (fun _ => .ok (some "supergraph"))
      [(("users", "http://u/"), "type Query")] "posts" "http://p/" "type P"
      "supergraph" (by decide) (by decide) rfl⟩

/-- C2 counterexample: an `AddSubgraph` whose name matches an existing entry
but whose routing URL differs is not detected as a conflict: the reply is
`MessageReceived`, not `ErrorNotification`, and the entry is inserted, so
the registry is not unchanged. -/
theorem C2_same_name_different_url_counterexample :
    (add_subgraph (fun _ => .ok none) [(("users", "http://u/"), "type Q")]
        (("users", "http://v/"), "type Q2")).reply = .MessageReceived ∧
    (add_subgraph (fun _ => .ok none) [(("users", "http://u/"), "type Q")]
        (("users", "http://v/"), "type Q2")).registry
      = [(("users", "http://u/"), "type Q"),
         (("users", "http://v/"), "type Q2")] ∧
    [(("users", "http://u/"), "type Q"), (("users", "http://v/"), "type Q2")]
      ≠ [(("users", "http://u/"), "type Q")] := by
  decide

/-- C2 (amended): the conflict is keyed on the exact `(name, url)` pair: if
the exact key is present the leader replies `ErrorNotification` naming the
conflict, the registry is unchanged and no recomposition runs; if the exact
key is absent — in particular when only the name collides but the URL
differs — the entry is inserted. -/
theorem C2_exact_key_conflict :
    (∀ (comp : SubgraphRegistry → CompositionResult) (r : SubgraphRegistry)
        (name : SubgraphName) (url : SubgraphUrl) (sdl s : SubgraphSdl),
        regLookup r (name, url) = some s →
        add_subgraph comp r ((name, url), sdl)
          = ⟨.ErrorNotification (subgraphAlreadyExistsError name url), r, []⟩) ∧
    (∀ (comp : SubgraphRegistry → CompositionResult) (r : SubgraphRegistry)
        (name : SubgraphName) (url : SubgraphUrl) (sdl : SubgraphSdl),
        regLookup r (name, url) = none →
        (add_subgraph comp r ((name, url), sdl)).registry
          = regInsert r (name, url) sdl) := by
  constructor
  · intro comp r name url sdl s h
    simp [add_subgraph, h]
  · intro comp r name url sdl h
    cases hcr : comp (regInsert r (name, url) sdl) with
    | error e => simp [add_subgraph, h, hcr]
    | ok v =>
        cases v with
        | none => simp [add_subgraph, h, hcr]
        | some s => by_cases hr : r.isEmpty <;> simp [add_subgraph, h, hcr, hr]

/-- C2 witness: a duplicate exact key is rejected with `ErrorNotification`
and the registry is unchanged. -/
theorem C2_exact_key_conflict_witness :
    regLookup [(("users", "http://u/"), "type Q")] ("users", "http://u/")
      = some "type Q" ∧
    add_subgraph (fun _ => .ok (some "sg")) [(("users", "http://u/"), "type Q")]
        (("users", "http://u/"), "other sdl")
      = ⟨.ErrorNotification (subgraphAlreadyExistsError "users" "http://u/"),
         [(("users", "http://u/"), "type Q")], []⟩ :=
  ⟨by decide,
   C2_exact_key_conflict.1 (fun _ => .ok (some "sg"))
     [(("users", "http://u/"), "type Q")] "users" "http://u/" "other sdl"
     "type Q" (by decide)⟩

/-- C3 counterexample: with budget 1, after a success and two consecutive
failures the watcher emits `RemoveSubgraph` — but it does not stop: the
polling loop carries on with an empty carried message and on the next
successful fetch it emits `AddSubgraph` again. -/
theorem C3_watcher_does_not_stop_counterexample :
    (watcherRun
        (new_from_introspect_runner ("flaky", "http://flaky/")
          (.Graph "http://flaky/") 1 1) none
        [.ok ("type A", none), .error "down", .error "down",
         .ok ("type A", none)]).sent
      = [.AddSubgraph ((("flaky", "http://flaky/"), "type A")),
         .RemoveSubgraph "flaky",
         .AddSubgraph ((("flaky", "http://flaky/"), "type A"))] := by
  decide

/-- C3 (amended): any successful fetch resets the countdown to the budget
`B`; from a full countdown, exactly `B+1` consecutive fetch failures emit
one `RemoveSubgraph` (the first `B` each only decrementing and warning).
The watcher does not stop afterwards: its carried message is cleared and a
later success emits `AddSubgraph` again. -/
theorem C3_retry_hysteresis :
    (∀ (w : SubgraphSchemaWatcher) (lm : Option String) (sdl : SubgraphSdl)
        (refr : Option SubgraphSchemaWatcherKind),
        (watcherUpdateSubgraph w lm
            (.ok (sdl, refr))).state.subgraph_retry_countdown
          = w.subgraph_retries) ∧
    (∀ (w : SubgraphSchemaWatcher) (lm : Option String) (e : String),
        w.subgraph_retry_countdown = w.subgraph_retries →
        (watcherRun w lm
            (List.replicate (w.subgraph_retries + 1) (Except.error e))).sent
            = [.RemoveSubgraph w.subgraph_key.1] ∧
        (watcherRun w lm
            (List.replicate (w.subgraph_retries + 1) (Except.error e))).console
            = List.replicate w.subgraph_retries ConsoleEvent.retryWarning
                ++ [ConsoleEvent.retriesExhausted]) ∧
    (∀ (w : SubgraphSchemaWatcher) (sdl : SubgraphSdl)
        (refr : Option SubgraphSchemaWatcherKind),
        (watcherUpdateSubgraph w none (.ok (sdl, refr))).sent
          = [.AddSubgraph (w.subgraph_key, sdl)]) := by
  refine ⟨?_, ?_, ?_⟩
  · intro w lm sdl refr
    cases refr with
    | none =>
        cases lm with
        | none => simp [watcherUpdateSubgraph]
        | some lmv =>
            by_cases hsd : sdl = lmv <;> simp [watcherUpdateSubgraph, hsd]
    | some nk =>
        cases lm with
        | none => simp [watcherUpdateSubgraph]
        | some lmv =>
            by_cases hsd : sdl = lmv <;> simp [watcherUpdateSubgraph, hsd]
  · intro w lm e h
    rw [watcherRun_failures e w.subgraph_retries w lm h]
    exact ⟨rfl, rfl⟩
  · intro w sdl refr
    cases refr <;> simp [watcherUpdateSubgraph]

/-- C3 witness: budget 2, countdown full after a success; three consecutive
failures warn twice then emit exactly one `RemoveSubgraph`. -/
theorem C3_retry_hysteresis_witness :
    (watcherRun watcherFullBudget none
        (List.replicate 3 (Except.error "down"))).sent
      = [.RemoveSubgraph "flaky"] ∧
    (watcherRun watcherFullBudget none
        (List.replicate 3 (Except.error "down"))).console
      = [ConsoleEvent.retryWarning, ConsoleEvent.retryWarning,
         ConsoleEvent.retriesExhausted] := by
  have h := C3_retry_hysteresis.2.1 watcherFullBudget none "down" rfl
  exact ⟨h.1, h.2⟩

/-- C4 counterexample: with retries remaining, a failed fetch sets the
carried `last_message` to the error's display string, not the previously
fetched SDL: the recorded value changes. -/
theorem C4_last_message_counterexample :
    (watcherUpdateSubgraph watcherPartiallySpent (some "type QueryOld")
        (.error "connection refused")).lastMessage = some "connection refused" ∧
    some "connection refused" ≠ (some "type QueryOld" : Option String) ∧
    (watcherUpdateSubgraph watcherPartiallySpent (some "type QueryOld")
        (.error "connection refused")).sent = [] := by
  decide

/-- C4 (amended): while `retry_remaining > 0`, a failed fetch decrements the
counter, sends no message to the leader and prints a retry warning; but the
carried `last_message` becomes the error's display string rather than the
last successfully fetched SDL (the leader, receiving nothing, still holds
the old SDL). -/
theorem C4_failed_fetch_frame (w : SubgraphSchemaWatcher) (lm : Option String)
    (e : String) (h : 0 < w.subgraph_retry_countdown) :
    watcherUpdateSubgraph w lm (.error e)
      = ⟨{ w with subgraph_retry_countdown := w.subgraph_retry_countdown - 1 },
         some e, [], [.retryWarning]⟩ := by
  simp [watcherUpdateSubgraph, h]

/-- C4 witness: the frame condition evaluated at a concrete mid-flight
watcher. -/
theorem C4_failed_fetch_frame_witness :
    0 < watcherPartiallySpent.subgraph_retry_countdown ∧
    watcherUpdateSubgraph watcherPartiallySpent (some "type QueryOld")
        (.error "connection refused")
      = ⟨{ watcherPartiallySpent with subgraph_retry_countdown := 0 },
         some "connection refused", [], [.retryWarning]⟩ :=
  ⟨by decide,
   C4_failed_fetch_frame watcherPartiallySpent (some "type QueryOld")
     "connection refused" (by decide)⟩

/-- C5: federation-version precedence. A well-formed environment override
resolves to the parsed exact version regardless of the config value, with
no warning; a malformed override warns and falls back to the config-level
resolution; with neither, the result is `LatestFedTwo` with a warning; and
the four `S7` table entries hold concretely. -/
theorem C5_federation_version_resolution :
    (∀ (env : String) (cfg : Option FederationVersion) (v : FederationVersion),
        federationVersionFromEnvStr env = some v →
        get_federation_version cfg (some env) = (v, [])) ∧
    (∀ (env : String) (cfg : Option FederationVersion),
        federationVersionFromEnvStr env = none →
        (get_federation_version cfg (some env)).1
            = (get_federation_version cfg none).1 ∧
        FedVersionWarning.couldNotParseEnvVar
            ∈ (get_federation_version cfg (some env)).2) ∧
    get_federation_version none none
      = (.LatestFedTwo, [.versionNotFoundInSupergraphSchema]) ∧
    get_federation_version none (some "2.3.4") = (.ExactFedTwo ⟨2, 3, 4⟩, []) ∧
    ((get_federation_version none (some "crackers")).1 = .LatestFedTwo ∧
      FedVersionWarning.couldNotParseEnvVar
        ∈ (get_federation_version none (some "crackers")).2) ∧
    get_federation_version (some (.ExactFedOne ⟨0, 69, 0⟩)) none
      = (.ExactFedOne ⟨0, 69, 0⟩, []) := by
  refine ⟨?_, ?_, by decide, by decide, by decide, by decide⟩
  · intro env cfg v h
    simp [get_federation_version, h]
  · intro env cfg h
    cases cfg <;> simp [get_federation_version, h]

/-- C5 witness: a well-formed `0.x` environment override beats a conflicting
supergraph-config version (the repository's own `env_var_with_yaml_fed_one`
test shape). -/
theorem C5_federation_version_resolution_witness :
    federationVersionFromEnvStr "0.40.0" = some (.ExactFedOne ⟨0, 40, 0⟩) ∧
    get_federation_version (some (.ExactFedTwo ⟨2, 3, 5⟩)) (some "0.40.0")
      = (.ExactFedOne ⟨0, 40, 0⟩, []) :=
  ⟨by decide,
   C5_federation_version_resolution.1 "0.40.0" (some (.ExactFedTwo ⟨2, 3, 5⟩))
     (.ExactFedOne ⟨0, 40, 0⟩) (by decide)⟩

/-- C6 counterexample: with a composer that reports "no new schema", an
update whose SDL differs from the stored one replies `MessageReceived` on
both of two consecutive applications — zero `CompositionSuccess` replies
even though the SDL did not equal the stored SDL. -/
theorem C6_exactly_one_counterexample :
    regLookup [(("reviews", "http://r/"), "type R1")] ("reviews", "http://r/")
      = some "type R1" ∧
    "type R1" ≠ "type R2" ∧
    (update_subgraph (fun _ => .ok none) [(("reviews", "http://r/"), "type R1")]
        (("reviews", "http://r/"), "type R2")).reply = .MessageReceived ∧
    (update_subgraph (fun _ => .ok none)
        (update_subgraph (fun _ => .ok none)
          [(("reviews", "http://r/"), "type R1")]
          (("reviews", "http://r/"), "type R2")).registry
        (("reviews", "http://r/"), "type R2")).reply = .MessageReceived := by
  decide

/-- C6 (amended): `update(E)` applied twice in a row produces the same
registry as applying it once — the second application is a complete no-op
(`MessageReceived`, no compose call, unchanged registry) — so the two
replies carry at most one `CompositionSuccess`, never two; and when the
stored SDL equals the new SDL byte-for-byte the reply is `MessageReceived`
with no recomposition and an unchanged registry. -/
theorem C6_idempotent_update :
    (∀ (comp : SubgraphRegistry → CompositionResult) (r : SubgraphRegistry)
        (name : SubgraphName) (url : SubgraphUrl) (sdl : SubgraphSdl),
        update_subgraph comp
            (update_subgraph comp r ((name, url), sdl)).registry
            ((name, url), sdl)
          = ⟨.MessageReceived,
             (update_subgraph comp r ((name, url), sdl)).registry, []⟩) ∧
    (∀ (comp : SubgraphRegistry → CompositionResult) (r : SubgraphRegistry)
        (name : SubgraphName) (url : SubgraphUrl) (sdl : SubgraphSdl),
        regLookup r (name, url) = some sdl →
        update_subgraph comp r ((name, url), sdl)
          = ⟨.MessageReceived, r, []⟩) := by
  constructor
  · intro comp r name url sdl
    have h := regLookup_update_subgraph comp r name url sdl
    conv_lhs => rw [update_subgraph]
    rw [h]
    simp
  · intro comp r name url sdl h
    simp [update_subgraph, h]

/-- C6 witness: a byte-identical update is a pure acknowledgement. -/
theorem C6_idempotent_update_witness :
    regLookup [(("orders", "http://o/"), "type O")] ("orders", "http://o/")
      = some "type O" ∧
    update_subgraph (fun _ => .ok (some "sg"))
        [(("orders", "http://o/"), "type O")] (("orders", "http://o/"), "type O")
      = ⟨.MessageReceived, [(("orders", "http://o/"), "type O")], []⟩ :=
  ⟨by decide,
   C6_idempotent_update.2 (fun _ => .ok (some "sg"))
     [(("orders", "http://o/"), "type O")] "orders" "http://o/" "type O"
     (by decide)⟩

/-- C7: composition driver outcomes. A composer error propagates, kills the
router (and only kills it — no spawn), with kill errors swallowed (the
returned result and router actions are independent of the kill outcome); a
bytes-identical schema leaves the router alone; a new schema asks the
router supervisor to spawn. At the operation level, whenever add, update or
remove actually recomposed, a composer error turns into an
`ErrorNotification` reply and a "no new schema" outcome into
`MessageReceived`. -/
theorem C7_composition_driver_outcomes :
    (∀ (e : String) (sp kr : Except String Unit),
        (composeStep (.error e) sp kr).result = .error e ∧
        (composeStep (.error e) sp kr).routerActions = [RouterAction.kill]) ∧
    (∀ (c : CompositionResult) (sp kr kr' : Except String Unit),
        (composeStep c sp kr).result = (composeStep c sp kr').result ∧
        (composeStep c sp kr).routerActions
          = (composeStep c sp kr').routerActions) ∧
    (∀ (sp kr : Except String Unit),
        (composeStep (.ok none) sp kr).result = .ok none ∧
        (composeStep (.ok none) sp kr).routerActions = []) ∧
    (∀ (s : String) (sp kr : Except String Unit),
        RouterAction.spawn ∈ (composeStep (.ok (some s)) sp kr).routerActions) ∧
    (∀ (comp : SubgraphRegistry → CompositionResult) (r : SubgraphRegistry)
        (op : RegistryOp) (r' : SubgraphRegistry) (e : String),
        (applyOp comp r op).composed = [r'] → comp r' = .error e →
        (applyOp comp r op).reply = .ErrorNotification e) ∧
    (∀ (comp : SubgraphRegistry → CompositionResult) (r : SubgraphRegistry)
        (op : RegistryOp) (r' : SubgraphRegistry),
        (applyOp comp r op).composed = [r'] → comp r' = .ok none →
        (applyOp comp r op).reply = .MessageReceived) := by
  refine ⟨fun e sp kr => ⟨rfl, rfl⟩, ?_, fun sp kr => ⟨rfl, rfl⟩, ?_, ?_, ?_⟩
  · intro c sp kr kr'
    cases c with
    | error e => exact ⟨rfl, rfl⟩
    | ok v =>
        cases v with
        | none => exact ⟨rfl, rfl⟩
        | some s => cases sp <;> exact ⟨rfl, rfl⟩
  · intro s sp kr
    cases sp <;> simp [composeStep]
  · intro comp r op r' e hc hcomp
    cases op with
    | add en =>
        obtain ⟨⟨name, url⟩, sdl⟩ := en
        exact (add_subgraph_composed_reply comp r name url sdl r' hc).1 e hcomp
    | update en =>
        obtain ⟨⟨name, url⟩, sdl⟩ := en
        exact (update_subgraph_composed_reply comp r name url sdl r' hc).1 e hcomp
    | remove n =>
        exact (remove_subgraph_composed_reply comp r n r' hc).1 e hcomp
  · intro comp r op r' hc hcomp
    cases op with
    | add en =>
        obtain ⟨⟨name, url⟩, sdl⟩ := en
        exact (add_subgraph_composed_reply comp r name url sdl r' hc).2 hcomp
    | update en =>
        obtain ⟨⟨name, url⟩, sdl⟩ := en
        exact (update_subgraph_composed_reply comp r name url sdl r' hc).2 hcomp
    | remove n =>
        exact (remove_subgraph_composed_reply comp r n r' hc).2 hcomp

/-- C7 witness: concrete composer failure — the driver records only a kill,
and an update that recomposed into that failure replies
`ErrorNotification`. -/
theorem C7_composition_driver_outcomes_witness :
    (composeStep (.error "boom") (.ok ()) (.error "kill failed")).routerActions
      = [RouterAction.kill] ∧
    (update_subgraph (fun _ => .error "boom") [(("a", "http://a/"), "s1")]
        (("a", "http://a/"), "s2")).reply = .ErrorNotification "boom" := by
  refine ⟨(C7_composition_driver_outcomes.1 "boom" (.ok ()) (.error "kill failed")).2, ?_⟩
  have h := C7_composition_driver_outcomes.2.2.2.2.1
    (fun _ => .error "boom") [(("a", "http://a/"), "s1")]
    (.update (("a", "http://a/"), "s2")) [(("a", "http://a/"), "s2")] "boom"
    (by decide) rfl
  exact h

/-- C8 counterexample: removing an existing subgraph while the composer
fails replies `ErrorNotification` — neither `CompositionSuccess` nor
`MessageReceived`. -/
theorem C8_remove_reply_counterexample :
    (remove_subgraph (fun _ => .error "composition failed")
        [(("accounts", "http://a/"), "type Q")] "accounts").reply
      = .ErrorNotification "composition failed" ∧
    (remove_subgraph (fun _ => .error "composition failed")
        [(("accounts", "http://a/"), "type Q")] "accounts").reply
      ≠ .MessageReceived ∧
    isCompositionSuccess
        (remove_subgraph (fun _ => .error "composition failed")
          [(("accounts", "http://a/"), "type Q")] "accounts").reply = false := by
  decide

/-- C8 (amended): `RemoveSubgraph(name)` removes the first key in iteration
order whose name matches (URL ignored), recomposes, and replies
`CompositionSuccess` on a new schema, `MessageReceived` on "no new schema",
and `ErrorNotification` on a composer error; when no key matches, the reply
is `MessageReceived` and the registry is unchanged. -/
theorem C8_remove_semantics :
    (∀ (comp : SubgraphRegistry → CompositionResult) (r : SubgraphRegistry)
        (n : SubgraphName),
        regFindByName r n = none →
        remove_subgraph comp r n = ⟨.MessageReceived, r, []⟩) ∧
    (∀ (r : SubgraphRegistry) (n name : SubgraphName) (url : SubgraphUrl),
        regFindByName r n = some (name, url) → name = n) ∧
    (∀ (comp : SubgraphRegistry → CompositionResult) (r : SubgraphRegistry)
        (n name : SubgraphName) (url : SubgraphUrl),
        regFindByName r n = some (name, url) →
        (remove_subgraph comp r n).registry = regRemove r (name, url) ∧
        (remove_subgraph comp r n).composed = [regRemove r (name, url)] ∧
        (∀ s, comp (regRemove r (name, url)) = .ok (some s) →
            (remove_subgraph comp r n).reply
              = .CompositionSuccess (removeSubgraphAction name)) ∧
        (comp (regRemove r (name, url)) = .ok none →
            (remove_subgraph comp r n).reply = .MessageReceived) ∧
        (∀ e, comp (regRemove r (name, url)) = .error e →
            (remove_subgraph comp r n).reply = .ErrorNotification e)) := by
  refine ⟨?_, ?_, ?_⟩
  · intro comp r n h
    simp [remove_subgraph, h]
  · intro r n name url h
    exact regFindByName_name h
  · intro comp r n name url h
    cases hcr : comp (regRemove r (name, url)) with
    | error e0 =>
        refine ⟨by simp [remove_subgraph, h, hcr],
          by simp [remove_subgraph, h, hcr], fun s hs => ?_, fun hs => ?_,
          fun e he => ?_⟩
        · simp at hs
        · simp at hs
        · injection he with he
          subst he
          simp [remove_subgraph, h, hcr]
    | ok v =>
        cases v with
        | none =>
            refine ⟨by simp [remove_subgraph, h, hcr],
              by simp [remove_subgraph, h, hcr], fun s hs => ?_, fun _ => ?_,
              fun e he => ?_⟩
            · simp at hs
            · simp [remove_subgraph, h, hcr]
            · simp at he
        | some s0 =>
            refine ⟨by simp [remove_subgraph, h, hcr],
              by simp [remove_subgraph, h, hcr], fun s hs => ?_, fun hs => ?_,
              fun e he => ?_⟩
            · injection hs with hs
              injection hs with hs
              subst hs
              simp [remove_subgraph, h, hcr]
            · simp at hs
            · simp at he

/-- C8 witness: with two same-named entries, the first key in iteration
order is the one removed; the reply names the subgraph. -/
theorem C8_remove_semantics_witness :
    regFindByName [(("x", "http://u1/"), "s1"), (("x", "http://u2/"), "s2")] "x"
      = some ("x", "http://u1/") ∧
    (remove_subgraph (fun _ => .ok (some "sg"))
        [(("x", "http://u1/"), "s1"), (("x", "http://u2/"), "s2")] "x").registry
      = [(("x", "http://u2/"), "s2")] ∧
    (remove_subgraph (fun _ => .ok (some "sg"))
        [(("x", "http://u1/"), "s1"), (("x", "http://u2/"), "s2")] "x").reply
      = .CompositionSuccess (removeSubgraphAction "x") := by
  have h := C8_remove_semantics.2.2 (fun _ => .ok (some "sg"))
    [(("x", "http://u1/"), "s1"), (("x", "http://u2/"), "s2")] "x" "x"
    "http://u1/" (by decide)
  exact ⟨by decide, h.1.trans (by decide), h.2.2.1 "sg" rfl⟩

/-- C9 counterexample: an `AddSubgraph` carrying an empty SDL into an empty
registry, with a composer that succeeds and produces a schema: the compose
ran on the new registry and succeeded, yet the registry maps a key to the
empty string. -/
theorem C9_empty_sdl_counterexample :
    (add_subgraph (fun _ => .ok (some "supergraph")) []
        (("empty", "http://e/"), "")).reply = .MessageReceived ∧
    (add_subgraph (fun _ => .ok (some "supergraph")) []
        (("empty", "http://e/"), "")).composed
      = [[(("empty", "http://e/"), "")]] ∧
    (add_subgraph (fun _ => .ok (some "supergraph")) []
        (("empty", "http://e/"), "")).registry = [(("empty", "http://e/"), "")] ∧
    regNoEmptySdl [(("empty", "http://e/"), "")] = false := by
  decide

/-- C9 (amended): the leader never filters SDLs itself, so the invariant
holds exactly for the inputs that respect it: after any sequence of
add/update/remove operations whose payload SDLs are all non-empty, applied
to a registry without empty SDLs, the registry contains no entry whose SDL
is the empty string (whatever the composer answered); an operation carrying
an empty SDL violates the original invariant even when the compose
succeeds. -/
theorem C9_no_empty_sdl_invariant
    (comp : SubgraphRegistry → CompositionResult) (r : SubgraphRegistry)
    (ops : List RegistryOp) (h : regNoEmptySdl r = true)
    (hops : ∀ op ∈ ops, opSdlNonEmpty op = true) :
    regNoEmptySdl (applyOps comp r ops) = true := by
  induction ops generalizing r with
  | nil => simpa [applyOps] using h
  | cons op rest ih =>
      rw [applyOps]
      exact ih (applyOp comp r op).registry
        (regNoEmptySdl_applyOp comp r op (hops op (List.mem_cons_self _ _)) h)
        (fun o ho => hops o (List.mem_cons_of_mem _ ho))

/-- C9 witness: a concrete add-then-update run with non-empty SDLs keeps the
registry free of empty SDLs. -/
theorem C9_no_empty_sdl_invariant_witness :
    regNoEmptySdl (applyOps (fun _ => .ok (some "sg")) []
        [.add (("a", "http://a/"), "type A"),
         .update (("a", "http://a/"), "type A2")]) = true :=
  C9_no_empty_sdl_invariant (fun _ => .ok (some "sg")) []
    [.add (("a", "http://a/"), "type A"),
     .update (("a", "http://a/"), "type A2")]
    (by decide) (by decide)

/-- C10 counterexample: a fresh watcher with a large budget whose first
fetch fails emits `RemoveSubgraph` immediately — but it does not stop: a
subsequent successful fetch emits `AddSubgraph`. -/
theorem C10_watcher_continues_counterexample :
    (watcherRun (new_from_file_path ("products", "http://pr/")
        "products.graphql" 5) none
        [.error "io error", .ok ("type P", none)]).sent
      = [.RemoveSubgraph "products",
         .AddSubgraph ((("products", "http://pr/"), "type P"))] := by
  decide

/-- C10 (amended): every constructor starts the retry countdown at 0 rather
than at the configured budget, so a watcher whose very first fetch fails
(before any success) immediately emits `RemoveSubgraph` and prints the
exhaustion message, regardless of how large the budget is; the polling loop
itself does not terminate. -/
theorem C10_initial_countdown_zero :
    (∀ (key : SubgraphKey) (path : String) (retries : Nat),
        (new_from_file_path key path retries).subgraph_retry_countdown = 0) ∧
    (∀ (key : SubgraphKey) (sdl : String) (retries : Nat),
        (new_from_sdl key sdl retries).subgraph_retry_countdown = 0) ∧
    (∀ (key : SubgraphKey) (runner : IntrospectRunnerKind)
        (interval retries : Nat),
        (new_from_introspect_runner key runner
            interval retries).subgraph_retry_countdown = 0) ∧
    (∀ (key : SubgraphKey) (interval retries : Nat) (u : String),
        (new_from_url key interval retries u).subgraph_retry_countdown = 0) ∧
    (∀ (n u sdl : String) (retries : Nat),
        (new_from_graph_ref n u sdl retries).subgraph_retry_countdown = 0) ∧
    (∀ (w : SubgraphSchemaWatcher) (e : String),
        w.subgraph_retry_countdown = 0 →
        (watcherUpdateSubgraph w none (.error e)).sent
            = [.RemoveSubgraph w.subgraph_key.1] ∧
        (watcherUpdateSubgraph w none (.error e)).console
            = [.retriesExhausted]) := by
  refine ⟨fun _ _ _ => rfl, fun _ _ _ => rfl, fun _ _ _ _ => rfl,
    fun _ _ _ _ => rfl, fun _ _ _ _ => rfl, ?_⟩
  intro w e h
  constructor <;> simp [watcherUpdateSubgraph, h]

/-- C10 witness: even with a budget of a million, a fresh watcher's first
failure is terminal for the subgraph. -/
theorem C10_initial_countdown_zero_witness :
    (new_from_introspect_runner ("big", "http://b/") (.Unknown "http://b/") 5
        1000000).subgraph_retry_countdown = 0 ∧
    (watcherUpdateSubgraph
        (new_from_introspect_runner ("big", "http://b/") (.Unknown "http://b/")
          5 1000000) none (.error "io")).sent
      = [.RemoveSubgraph "big"] :=
  ⟨C10_initial_countdown_zero.2.2.1 ("big", "http://b/") (.Unknown "http://b/")
      5 1000000,
   (C10_initial_countdown_zero.2.2.2.2.2
      (new_from_introspect_runner ("big", "http://b/") (.Unknown "http://b/")
        5 1000000) "io" rfl).1⟩
